import Mathlib

/-!
Verification of the REVERSI.EXE byte-patching scripts.

The repository contains three Python scripts (`patch_reversi_v3.py`,
`patch_reversi_v2.py`, `legacy/patch_reversi.py`) that rewrite byte ranges of
a fixed-layout executable image.  We embed the image as `List Nat` (one entry
per byte) and translate each patching function directly from its source.

Python behaviours reflected in the embedding:
  * slicing `data[o : o+n]` clamps at the end of the buffer (`sliceBytes`);
  * the per-index assignment loop `for i, b in enumerate(nb): data[o+i] = b`
    becomes `writeAt`, one `List.set` per iteration;
  * bytearray slice assignment with equal lengths becomes a take/append/drop
    splice (legacy `patch_bytes`);
  * a raised Python exception is an `Except.error` value.
-/

/-- Python slice `data[offset : offset + len]` (clamped at the end). -/
def sliceBytes (data : List Nat) (offset len : Nat) : List Nat :=
  (data.drop offset).take len

/-- The write loop `for i, b in enumerate(newBytes): data[offset + i] = b`. -/
def writeAt : List Nat → Nat → List Nat → List Nat
  | data, _, [] => data
  | data, offset, b :: bs => writeAt (data.set offset b) (offset + 1) bs

/-- Per-descriptor outcome, matching the distinct failure branches the code
prints: length error, pre-image mismatch, ascii-encoding failure, success. -/
inductive POutcome where
  | encErr
  | tooLong
  | mismatch
  | applied
deriving DecidableEq, Repr

/-- `patch_exact` from `patch_reversi_v3.py` (lines 52-72): length check first,
then pre-image comparison, then the byte-by-byte write. -/
def patch_exact (data : List Nat) (offset : Nat) (old_bytes new_bytes : List Nat) :
    POutcome × List Nat :=
  if old_bytes.length ≠ new_bytes.length then
    (POutcome.tooLong, data)
  else
    let actual := sliceBytes data offset old_bytes.length
    if actual ≠ old_bytes then
      (POutcome.mismatch, data)
    else
      (POutcome.applied, writeAt data offset new_bytes)

/-- `safe_patch_menu_string` from `patch_reversi_v2.py` (lines 52-86).
Strings are byte lists; `.encode('ascii')` succeeds iff every code point is
below 0x80 (a failure raises, which we record as `encErr` with no mutation).
Too-long check, space padding, pre-image check, then the write loop. -/
def safe_patch_menu_string (data : List Nat) (offset : Nat)
    (old_str new_str : List Nat) : POutcome × List Nat :=
  if ¬ (old_str.all (· < 128) ∧ new_str.all (· < 128)) then
    (POutcome.encErr, data)
  else if new_str.length > old_str.length then
    (POutcome.tooLong, data)
  else
    let padded := new_str ++ List.replicate (old_str.length - new_str.length) 0x20
    let actual := sliceBytes data offset old_str.length
    if actual ≠ old_str then
      (POutcome.mismatch, data)
    else
      (POutcome.applied, writeAt data offset padded)

/-- `safe_patch_pascal_string` from `patch_reversi_v2.py` (lines 88-124):
identical checks to the menu variant; the write starts at `offset`, so the
count byte at `offset - 1` is never touched. -/
def safe_patch_pascal_string (data : List Nat) (offset : Nat)
    (old_str new_str : List Nat) : POutcome × List Nat :=
  if ¬ (old_str.all (· < 128) ∧ new_str.all (· < 128)) then
    (POutcome.encErr, data)
  else if new_str.length > old_str.length then
    (POutcome.tooLong, data)
  else
    let padded := new_str ++ List.replicate (old_str.length - new_str.length) 0x20
    let actual := sliceBytes data offset old_str.length
    if actual ≠ old_str then
      (POutcome.mismatch, data)
    else
      (POutcome.applied, writeAt data offset padded)

/-- `patch_bytes_at` from `patch_reversi_v2.py` (lines 43-50): unconditional
write loop, always returns `True`. -/
def patch_bytes_at (data : List Nat) (offset : Nat) (new_bytes : List Nat) :
    Bool × List Nat :=
  (true, writeAt data offset new_bytes)

/-- `patch_bytes` from `legacy/patch_reversi.py` (lines 34-54): a length
mismatch raises `ValueError` (modelled as `Except.error`); a pre-image
mismatch returns `False`; otherwise the slice assignment
`data[offset : offset+len] = new_bytes` is performed. -/
def patch_bytes (data : List Nat) (offset : Nat) (old_bytes new_bytes : List Nat) :
    Except String (Bool × List Nat) :=
  if old_bytes.length ≠ new_bytes.length then
    Except.error "Patch size mismatch"
  else if sliceBytes data offset old_bytes.length ≠ old_bytes then
    Except.ok (false, data)
  else
    Except.ok (true, data.take offset ++ new_bytes ++ data.drop (offset + new_bytes.length))

/-- `patch_string` from `legacy/patch_reversi.py` (lines 56-71):
`.encode('latin-1')` succeeds iff every code point is below 0x100 (failure
raises); a too-long replacement raises `ValueError`; otherwise the
replacement is right-padded with `pad_char` and handed to `patch_bytes`.
No check of the 0x20-0x7E printable range appears anywhere. -/
def patch_string (data : List Nat) (offset : Nat) (old_str new_str : List Nat)
    (pad_char : Nat) : Except String (Bool × List Nat) :=
  if ¬ (old_str.all (· < 256) ∧ new_str.all (· < 256)) then
    Except.error "UnicodeEncodeError"
  else if new_str.length > old_str.length then
    Except.error "New string too long"
  else
    patch_bytes data offset old_str
      (new_str ++ List.replicate (old_str.length - new_str.length) pad_char)

/-- Substring search: index of the first occurrence of `pattern`, as
`bytes.find` (without the -1 encoding; `none` = not found). -/
def findSubAux : List Nat → List Nat → Nat → Option Nat
  | [], pat, i => if pat.isPrefixOf ([] : List Nat) then some i else none
  | x :: rest, pat, i =>
    if pat.isPrefixOf (x :: rest) then some i else findSubAux rest pat (i + 1)

/-- `exe_bytes.find(pattern)` from `patch_reversi_v3.py`. -/
def findSub (data pattern : List Nat) : Option Nat :=
  findSubAux data pattern 0

/-- The fixed-offset half of `create_danish_version` (v3, lines 87-149): each
step `(offset, old, new)` goes through `patch_exact`; success bumps `ok`,
failure bumps `fail`, and the loop always continues. -/
def runFixed : List Nat → Nat → Nat → List (Nat × List Nat × List Nat) →
    List Nat × Nat × Nat
  | data, ok, fail, [] => (data, ok, fail)
  | data, ok, fail, s :: rest =>
    match patch_exact data s.1 s.2.1 s.2.2 with
    | (POutcome.applied, d) => runFixed d (ok + 1) fail rest
    | (_, d) => runFixed d ok (fail + 1) rest

/-- The search-based half of `create_danish_version` (v3, lines 158-233):
`exe_bytes` is a snapshot taken once; each step `(pattern, delta, old, new)`
searches the snapshot, and only when the pattern is found does
`patch_exact` run at `found + delta` — an absent pattern records nothing. -/
def runSearch : List Nat → List Nat → Nat → Nat →
    List (List Nat × Nat × List Nat × List Nat) → List Nat × Nat × Nat
  | _, data, ok, fail, [] => (data, ok, fail)
  | snapshot, data, ok, fail, s :: rest =>
    match findSub snapshot s.1 with
    | none => runSearch snapshot data ok fail rest
    | some idx =>
      match patch_exact data (idx + s.2.1) s.2.2.1 s.2.2.2 with
      | (POutcome.applied, d) => runSearch snapshot d (ok + 1) fail rest
      | (_, d) => runSearch snapshot d ok (fail + 1) rest

/-- `create_danish_version` (v3) as a run over its descriptor tables: the
fixed menu patches first, then the snapshot `exe_bytes = bytes(data)`
(line 158), then the search-based patches.  Returns (image, ok, fail). -/
def create_danish_version (data : List Nat)
    (fixed : List (Nat × List Nat × List Nat))
    (search : List (List Nat × Nat × List Nat × List Nat)) :
    List Nat × Nat × Nat :=
  let r := runFixed data 0 0 fixed
  runSearch r.1 r.1 r.2.1 r.2.2 search

/-- The hard-coded corner-position patches of `create_corner_version`
(v3, lines 254-259). -/
def cornerPatches : List (Nat × List Nat) :=
  [(0x11E2, [0xC6, 0x40, 0x0B, 0x03]),
   (0x11F1, [0xC6, 0x40, 0x58, 0x03]),
   (0x1200, [0xC6, 0x40, 0x12, 0x02]),
   (0x120F, [0xC6, 0x40, 0x51, 0x02])]

/-- The patch loop of `create_corner_version` (v3, lines 261-264) applied to
an arbitrary patch table: an unconditional write per entry. -/
def runUnconditional (data : List Nat) (patches : List (Nat × List Nat)) : List Nat :=
  patches.foldl (fun acc p => (patch_bytes_at acc p.1 p.2).2) data

/-- `create_corner_version` (v3, lines 246-268): unconditionally writes the
four corner patches and returns `True`. -/
def create_corner_version (data : List Nat) : Bool × List Nat :=
  (true, runUnconditional data cornerPatches)

/-- `verify_patched_file` (v3, lines 270-290): checks size 15760 and the
`NE` marker at 0x400, but only as printed warnings — the function returns
`True` unconditionally.  Result: (returned value, size check, marker check). -/
def verify_patched_file (data : List Nat) : Bool × Bool × Bool :=
  (true, decide (data.length = 15760),
   decide (sliceBytes data 0x400 2 = [0x4E, 0x45]))

/-- `main` (v3, lines 292-305) on an already-loaded source image: build the
Danish image and persist it, verify it afterwards, then build the corner
image and persist it, verify it afterwards.  Returns the persisted images
(in order) and the two values `verify_patched_file` returned.  No check of
the source image precedes the patch runs or the writes. -/
def main_model (source : List Nat)
    (fixed : List (Nat × List Nat × List Nat))
    (search : List (List Nat × Nat × List Nat × List Nat)) :
    List (List Nat) × List Bool :=
  let danish := (create_danish_version source fixed search).1
  let corner := (create_corner_version source).2
  ([danish, corner],
   [(verify_patched_file danish).1, (verify_patched_file corner).1])

/-! ### Helper lemmas about the write loop -/

theorem writeAt_length (new_bytes : List Nat) :
    ∀ (data : List Nat) (offset : Nat),
      (writeAt data offset new_bytes).length = data.length := by
  induction new_bytes with
  | nil => intro data offset; rfl
  | cons b bs ih =>
    intro data offset
    rw [writeAt, ih]
    exact data.length_set offset b

theorem take_set_succ (b : Nat) :
    ∀ (l : List Nat) (n : Nat), n < l.length →
      (l.set n b).take (n + 1) = l.take n ++ [b] := by
  intro l
  induction l with
  | nil => intro n h; simp at h
  | cons x xs ih =>
    intro n h
    cases n with
    | zero => simp
    | succ m =>
      simp only [List.set, List.take, List.cons_append]
      rw [ih m (by simpa using h)]

theorem drop_set_ge (b : Nat) :
    ∀ (l : List Nat) (n k : Nat), n < k → (l.set n b).drop k = l.drop k := by
  intro l
  induction l with
  | nil => intro n k _; simp
  | cons x xs ih =>
    intro n k h
    cases n with
    | zero =>
      cases k with
      | zero => omega
      | succ j => simp
    | succ m =>
      cases k with
      | zero => omega
      | succ j =>
        simp only [List.set, List.drop]
        exact ih m j (by omega)

theorem writeAt_splice (new_bytes : List Nat) :
    ∀ (data : List Nat) (offset : Nat),
      offset + new_bytes.length ≤ data.length →
      writeAt data offset new_bytes =
        data.take offset ++ new_bytes ++ data.drop (offset + new_bytes.length) := by
  induction new_bytes with
  | nil =>
    intro data offset _
    simp [writeAt]
  | cons b bs ih =>
    intro data offset h
    have hlt : offset < data.length := by
      simp only [List.length_cons] at h; omega
    rw [writeAt, ih (data.set offset b) (offset + 1)
      (by rw [data.length_set]; simp only [List.length_cons] at h ⊢; omega)]
    rw [take_set_succ b data offset hlt,
        drop_set_ge b data offset (offset + 1 + bs.length) (by omega)]
    have he : offset + 1 + bs.length = offset + (b :: bs).length := by
      simp only [List.length_cons]; omega
    rw [he]
    simp [List.append_assoc]

theorem writeAt_getElem_lt (new_bytes : List Nat) :
    ∀ (data : List Nat) (offset j : Nat), j < offset →
      (writeAt data offset new_bytes)[j]? = data[j]? := by
  induction new_bytes with
  | nil => intro data offset j _; rfl
  | cons b bs ih =>
    intro data offset j h
    rw [writeAt, ih _ _ _ (by omega)]
    exact List.getElem?_set_ne (by omega)

theorem writeAt_getElem_ge (new_bytes : List Nat) :
    ∀ (data : List Nat) (offset j : Nat), offset + new_bytes.length ≤ j →
      (writeAt data offset new_bytes)[j]? = data[j]? := by
  induction new_bytes with
  | nil => intro data offset j _; rfl
  | cons b bs ih =>
    intro data offset j h
    simp only [List.length_cons] at h
    rw [writeAt, ih _ _ _ (by omega)]
    exact List.getElem?_set_ne (by omega)

theorem sliceBytes_length (data : List Nat) (offset len : Nat) :
    (sliceBytes data offset len).length = min len (data.length - offset) := by
  simp [sliceBytes]

theorem sliceBytes_eq_bound {data old : List Nat} {offset : Nat}
    (h : sliceBytes data offset old.length = old) (hne : old ≠ []) :
    offset + old.length ≤ data.length := by
  have hl := congrArg List.length h
  rw [sliceBytes_length] at hl
  have hpos : 0 < old.length := List.length_pos.mpr hne
  omega

theorem patch_exact_length (data : List Nat) (offset : Nat)
    (old_bytes new_bytes : List Nat) :
    (patch_exact data offset old_bytes new_bytes).2.length = data.length := by
  simp only [patch_exact]
  split_ifs
  · rfl
  · rfl
  · exact writeAt_length new_bytes data offset

theorem runFixed_counts :
    ∀ (steps : List (Nat × List Nat × List Nat)) (data : List Nat) (ok fail : Nat),
      (runFixed data ok fail steps).2.1 + (runFixed data ok fail steps).2.2 =
        ok + fail + steps.length := by
  intro steps
  induction steps with
  | nil => intro d ok fail; rfl
  | cons s rest ih =>
    intro d ok fail
    rcases hpe : patch_exact d s.1 s.2.1 s.2.2 with ⟨o, d'⟩
    cases o <;> simp only [runFixed, hpe, List.length_cons] <;> rw [ih] <;> omega

theorem runFixed_length :
    ∀ (steps : List (Nat × List Nat × List Nat)) (data : List Nat) (ok fail : Nat),
      (runFixed data ok fail steps).1.length = data.length := by
  intro steps
  induction steps with
  | nil => intro d ok fail; rfl
  | cons s rest ih =>
    intro d ok fail
    rcases hpe : patch_exact d s.1 s.2.1 s.2.2 with ⟨o, d'⟩
    have hd : d'.length = d.length := by
      have := patch_exact_length d s.1 s.2.1 s.2.2
      rw [hpe] at this
      exact this
    cases o <;> simp only [runFixed, hpe] <;> rw [ih, hd]

theorem runSearch_counts :
    ∀ (steps : List (List Nat × Nat × List Nat × List Nat))
      (snapshot data : List Nat) (ok fail : Nat),
      (runSearch snapshot data ok fail steps).2.1 +
        (runSearch snapshot data ok fail steps).2.2 =
        ok + fail + steps.countP (fun s => (findSub snapshot s.1).isSome) := by
  intro steps
  induction steps with
  | nil => intro snap d ok fail; rfl
  | cons s rest ih =>
    intro snap d ok fail
    rcases hf : findSub snap s.1 with _ | idx
    · rw [List.countP_cons]
      simp only [runSearch, hf, Option.isSome_none]
      rw [ih]
      simp
    · rcases hpe : patch_exact d (idx + s.2.1) s.2.2.1 s.2.2.2 with ⟨o, d'⟩
      cases o <;>
        · rw [List.countP_cons]
          simp only [runSearch, hf, hpe, Option.isSome_some]
          rw [ih]
          simp
          omega

theorem runSearch_length :
    ∀ (steps : List (List Nat × Nat × List Nat × List Nat))
      (snapshot data : List Nat) (ok fail : Nat),
      (runSearch snapshot data ok fail steps).1.length = data.length := by
  intro steps
  induction steps with
  | nil => intro snap d ok fail; rfl
  | cons s rest ih =>
    intro snap d ok fail
    rcases hf : findSub snap s.1 with _ | idx
    · simp only [runSearch, hf]
      rw [ih]
    · rcases hpe : patch_exact d (idx + s.2.1) s.2.2.1 s.2.2.2 with ⟨o, d'⟩
      have hd : d'.length = d.length := by
        have := patch_exact_length d (idx + s.2.1) s.2.2.1 s.2.2.2
        rw [hpe] at this
        exact this
      cases o <;> simp only [runSearch, hf, hpe] <;> rw [ih, hd]

/-! ### Claim theorems -/

/-- C1 (no-write-on-mismatch): whenever the bytes actually present at the
offset differ from the expected bytes, `patch_exact` (v3) and
`safe_patch_menu_string` (v2) both report failure and return the image
byte-identical to the input — nothing is written. -/
theorem c1_no_write_on_mismatch (data : List Nat) (offset : Nat)
    (expected replacement : List Nat)
    (h : sliceBytes data offset expected.length ≠ expected) :
    ((patch_exact data offset expected replacement).1 ≠ POutcome.applied ∧
      (patch_exact data offset expected replacement).2 = data) ∧
    ((safe_patch_menu_string data offset expected replacement).1 ≠ POutcome.applied ∧
      (safe_patch_menu_string data offset expected replacement).2 = data) := by
  constructor
  · simp only [patch_exact]
    split_ifs <;> simp
  · simp only [safe_patch_menu_string]
    split_ifs <;> simp

/-- C1 witness: the spec's mismatch scenario — image `"AAAAHELLO!"`,
expected `"HELLX"` at offset 4 (actual is `"HELLO"`): both patchers fail and
leave the image unchanged. -/
theorem c1_no_write_on_mismatch_witness :
    ((patch_exact [65, 65, 65, 65, 72, 69, 76, 76, 79, 33] 4
        [72, 69, 76, 76, 88] [72, 73, 32, 32, 32]).1 ≠ POutcome.applied ∧
      (patch_exact [65, 65, 65, 65, 72, 69, 76, 76, 79, 33] 4
        [72, 69, 76, 76, 88] [72, 73, 32, 32, 32]).2 =
        [65, 65, 65, 65, 72, 69, 76, 76, 79, 33]) ∧
    ((safe_patch_menu_string [65, 65, 65, 65, 72, 69, 76, 76, 79, 33] 4
        [72, 69, 76, 76, 88] [72, 73, 32, 32, 32]).1 ≠ POutcome.applied ∧
      (safe_patch_menu_string [65, 65, 65, 65, 72, 69, 76, 76, 79, 33] 4
        [72, 69, 76, 76, 88] [72, 73, 32, 32, 32]).2 =
        [65, 65, 65, 65, 72, 69, 76, 76, 79, 33]) :=
  c1_no_write_on_mismatch [65, 65, 65, 65, 72, 69, 76, 76, 79, 33] 4
    [72, 69, 76, 76, 88] [72, 73, 32, 32, 32] (by decide)

theorem runUnconditional_length :
    ∀ (patches : List (Nat × List Nat)) (data : List Nat),
      (runUnconditional data patches).length = data.length := by
  intro patches
  induction patches with
  | nil => intro d; rfl
  | cons p rest ih =>
    intro d
    simp only [runUnconditional, List.foldl_cons] at *
    rw [ih, patch_bytes_at, writeAt_length]

/-- C2 (length invariant): a `create_danish_version` run over any descriptor
tables, an in-bounds `patch_bytes_at` write, and a `create_corner_version`
run on an image that covers the hard-coded offsets all return an image of
exactly the input's length — only same-position overwrites happen.  (The
in-bounds hypotheses reflect that an out-of-range index assignment raises
`IndexError` in Python and so produces no output at all.) -/
theorem c2_length_invariant (data : List Nat)
    (fixed : List (Nat × List Nat × List Nat))
    (search : List (List Nat × Nat × List Nat × List Nat))
    (offset : Nat) (new_bytes : List Nat) :
    (create_danish_version data fixed search).1.length = data.length ∧
    (offset + new_bytes.length ≤ data.length →
      (patch_bytes_at data offset new_bytes).2.length = data.length) ∧
    (0x1213 ≤ data.length →
      (create_corner_version data).2.length = data.length) := by
  refine ⟨?_, ?_, ?_⟩
  · simp only [create_danish_version]
    rw [runSearch_length, runFixed_length]
  · intro _
    simp only [patch_bytes_at]
    exact writeAt_length new_bytes data offset
  · intro _
    simp only [create_corner_version]
    exact runUnconditional_length cornerPatches data

/-- C2 witness: a 4864-byte image, one danish-style run, one in-bounds raw
write and the corner run all keep the length at 4864. -/
theorem c2_length_invariant_witness :
    (create_danish_version (List.replicate 4864 0) [] []).1.length = 4864 ∧
    (patch_bytes_at (List.replicate 4864 0) 0 [7]).2.length = 4864 ∧
    (create_corner_version (List.replicate 4864 0)).2.length = 4864 := by
  have h := c2_length_invariant (List.replicate 4864 0) [] [] 0 [7]
  refine ⟨?_, ?_, ?_⟩
  · rw [h.1, List.length_replicate]
  · rw [h.2.1 (by simp only [List.length_replicate, List.length_cons,
        List.length_nil]; omega), List.length_replicate]
  · rw [h.2.2 (by simp only [List.length_replicate]; omega), List.length_replicate]

/-- C3 (round-trip on correct pre-image): when the bytes at the offset equal
`expected` and the (already padded) `replacement` has the same length,
`patch_exact` succeeds and the output image is the input with exactly the
target range replaced; in particular re-reading the target range yields
`replacement`. -/
theorem c3_round_trip (data : List Nat) (offset : Nat)
    (expected replacement : List Nat)
    (hmatch : sliceBytes data offset expected.length = expected)
    (hlen : expected.length = replacement.length) :
    patch_exact data offset expected replacement =
      (POutcome.applied,
        data.take offset ++ replacement ++ data.drop (offset + expected.length)) ∧
    sliceBytes (patch_exact data offset expected replacement).2 offset
      replacement.length = replacement := by
  have key : writeAt data offset replacement =
      data.take offset ++ replacement ++ data.drop (offset + expected.length) := by
    rcases eq_or_ne expected [] with he | he
    · have hr : replacement = [] := by
        rw [he] at hlen
        exact (List.length_eq_zero.mp hlen.symm)
      rw [he, hr]
      simp [writeAt]
    · have hb := sliceBytes_eq_bound hmatch he
      rw [writeAt_splice replacement data offset (by omega), hlen]
  have hpe : patch_exact data offset expected replacement =
      (POutcome.applied,
        data.take offset ++ replacement ++ data.drop (offset + expected.length)) := by
    simp only [patch_exact]
    rw [if_neg (by omega), if_neg (by simp [hmatch]), key]
  refine ⟨hpe, ?_⟩
  rw [hpe]
  rcases eq_or_ne expected [] with he | he
  · have hr : replacement = [] := by
      rw [he] at hlen
      exact (List.length_eq_zero.mp hlen.symm)
    rw [hr]
    simp [sliceBytes]
  · have hb := sliceBytes_eq_bound hmatch he
    have htk : (data.take offset).length = offset := by
      rw [List.length_take]
      omega
    simp only [sliceBytes]
    rw [List.append_assoc, List.drop_left' htk, List.take_left' rfl]

/-- C3 witness: the spec's scenario — image `"AAAAHELLO!"`, offset 4,
expected `"HELLO"`, padded replacement `"HI   "`: outcome `applied`, the
image becomes `"AAAAHI   !"`, and re-reading the range gives `"HI   "`. -/
theorem c3_round_trip_witness :
    patch_exact [65, 65, 65, 65, 72, 69, 76, 76, 79, 33] 4
        [72, 69, 76, 76, 79] [72, 73, 32, 32, 32] =
      (POutcome.applied, [65, 65, 65, 65, 72, 73, 32, 32, 32, 33]) ∧
    sliceBytes (patch_exact [65, 65, 65, 65, 72, 69, 76, 76, 79, 33] 4
        [72, 69, 76, 76, 79] [72, 73, 32, 32, 32]).2 4 5 = [72, 73, 32, 32, 32] := by
  have h := c3_round_trip [65, 65, 65, 65, 72, 69, 76, 76, 79, 33] 4
    [72, 69, 76, 76, 79] [72, 73, 32, 32, 32] (by decide) (by decide)
  exact ⟨h.1.trans (by decide), h.2⟩

/-- C4 counterexample: a `create_danish_version` run whose (single)
search-based descriptor has a pattern absent from the image records no
outcome at all — `ok + fail = 0` although one descriptor was supplied, so
"every descriptor contributes exactly one recorded outcome" fails. -/
theorem c4_counterexample :
    (create_danish_version [] [] [([1], 0, [1], [2])]).2.1 +
      (create_danish_version [] [] [([1], 0, [1], [2])]).2.2 = 0 ∧
    ([([1], 0, [1], [2])] : List (List Nat × Nat × List Nat × List Nat)).length
      = 1 := by
  decide

/-- C4 amended: descriptors are processed in order with no short-circuit, and
every fixed-offset descriptor contributes exactly one recorded outcome
(`ok + fail` grows by exactly the list length); a search-based descriptor
contributes exactly one outcome when its pattern occurs in the snapshot, and
is silently skipped (no recorded outcome) when the pattern is absent. -/
theorem c4_batch_completeness (data snapshot : List Nat) (ok fail : Nat)
    (fixed : List (Nat × List Nat × List Nat))
    (search : List (List Nat × Nat × List Nat × List Nat)) :
    (runFixed data ok fail fixed).2.1 + (runFixed data ok fail fixed).2.2 =
      ok + fail + fixed.length ∧
    (runSearch snapshot data ok fail search).2.1 +
      (runSearch snapshot data ok fail search).2.2 =
      ok + fail + search.countP (fun s => (findSub snapshot s.1).isSome) :=
  ⟨runFixed_counts fixed data ok fail, runSearch_counts search snapshot data ok fail⟩

/-- C5 counterexample: at offset 0 of image `[0,0,0]` the actual bytes
`[0,0]` differ from the expected `[1,2]`, yet with a 1-byte replacement
`patch_exact` reports the length error, not `SkippedMismatch` — the length
check comes first in the code. -/
theorem c5_counterexample :
    sliceBytes [0, 0, 0] 0 2 ≠ [1, 2] ∧
    (patch_exact [0, 0, 0] 0 [1, 2] [9]).1 ≠ POutcome.mismatch ∧
    (patch_exact [0, 0, 0] 0 [1, 2] [9]).1 = POutcome.tooLong := by
  decide

/-- C5 amended: the replacement-length check precedes the pre-image
comparison; a mismatching descriptor yields `SkippedMismatch` (and no write)
exactly when its lengths already agree. -/
theorem c5_mismatch_requires_equal_lengths (data : List Nat) (offset : Nat)
    (expected replacement : List Nat)
    (hlen : expected.length = replacement.length)
    (h : sliceBytes data offset expected.length ≠ expected) :
    patch_exact data offset expected replacement = (POutcome.mismatch, data) := by
  simp only [patch_exact]
  rw [if_neg (by omega), if_pos h]

/-- C5 amended-claim witness at a concrete mismatching, equal-length
descriptor. -/
theorem c5_mismatch_requires_equal_lengths_witness :
    patch_exact [0, 0, 0, 0] 1 [5, 6] [7, 8] = (POutcome.mismatch, [0, 0, 0, 0]) :=
  c5_mismatch_requires_equal_lengths [0, 0, 0, 0] 1 [5, 6] [7, 8]
    (by decide) (by decide)

/-- C6 counterexample: the legacy `patch_bytes` does not produce a
recoverable `SkippedTooLong` on a length mismatch — it raises `ValueError`
(`Except.error`), aborting the run. -/
theorem c6_counterexample :
    patch_bytes [0, 0] 0 [1] [2, 3] = Except.error "Patch size mismatch" ∧
    ([1] : List Nat).length ≠ ([2, 3] : List Nat).length :=
  ⟨rfl, by decide⟩

/-- C6 amended: in v3, a descriptor whose replacement length differs from its
expected length yields `SkippedTooLong` with no mutation, and the batch
runner records the failure and continues with the remaining descriptors; the
legacy `patch_bytes`, by contrast, raises a fatal `ValueError`. -/
theorem c6_length_error_recoverable (data : List Nat) (offset : Nat)
    (expected replacement : List Nat) (ok fail : Nat)
    (rest : List (Nat × List Nat × List Nat))
    (h : expected.length ≠ replacement.length) :
    patch_exact data offset expected replacement = (POutcome.tooLong, data) ∧
    runFixed data ok fail ((offset, expected, replacement) :: rest) =
      runFixed data ok (fail + 1) rest ∧
    patch_bytes data offset expected replacement =
      Except.error "Patch size mismatch" := by
  have hpe : patch_exact data offset expected replacement =
      (POutcome.tooLong, data) := by
    simp only [patch_exact]
    rw [if_pos h]
  refine ⟨hpe, ?_, ?_⟩
  · simp only [runFixed, hpe]
  · simp only [patch_bytes]
    rw [if_pos h]

/-- C6 amended-claim witness at a concrete wrong-length descriptor. -/
theorem c6_length_error_recoverable_witness :
    patch_exact [3, 3] 0 [3] [4, 4] = (POutcome.tooLong, [3, 3]) ∧
    runFixed [3, 3] 0 0 [(0, [3], [4, 4])] = runFixed [3, 3] 0 1 [] ∧
    patch_bytes [3, 3] 0 [3] [4, 4] = Except.error "Patch size mismatch" :=
  c6_length_error_recoverable [3, 3] 0 [3] [4, 4] 0 0 [] (by decide)

/-- C7 counterexample: a malformed one-byte source `[0]` (wrong total length,
no `NE` marker) is neither pre-checked nor rejected: the danish run writes to
it (byte 0 becomes 9) and its output is persisted, and `verify_patched_file`
— which runs only after that persistence — still returns `True` even though
both of its checks fail on the persisted output. -/
theorem c7_counterexample :
    (create_danish_version [0] [(0, [0], [9])] []).1 = [9] ∧
    (main_model [0] [(0, [0], [9])] []).1.head? = some [9] ∧
    (verify_patched_file [9]).1 = true ∧
    (verify_patched_file [9]).2.1 = false ∧
    (verify_patched_file [9]).2.2 = false := by
  decide

/-- C7 amended: `main` performs no structural pre-check of the image bytes;
both variant images are always built and persisted, and
`verify_patched_file` — run only after each output is persisted — returns
`True` for every input, reporting size/marker problems merely as warnings. -/
theorem c7_no_structural_precheck (data source : List Nat)
    (fixed : List (Nat × List Nat × List Nat))
    (search : List (List Nat × Nat × List Nat × List Nat)) :
    (verify_patched_file data).1 = true ∧
    (main_model source fixed search).1 =
      [(create_danish_version source fixed search).1,
        (create_corner_version source).2] ∧
    (main_model source fixed search).2 = [true, true] :=
  ⟨rfl, rfl, rfl⟩

/-- C8 counterexample: the legacy `patch_string` happily applies a
replacement whose first byte 0x05 is far below the printable range 0x20-0x7E:
no `EncodingError`, and the image is mutated. -/
theorem c8_counterexample :
    patch_string [97, 98, 99, 100] 0 [97, 98, 99, 100] [5, 98] 0 =
      Except.ok (true, [5, 98, 0, 0]) ∧ (5 : Nat) < 0x20 :=
  ⟨rfl, by decide⟩

/-- C8 amended: no charset validation exists anywhere in the code.  For every
replacement that is latin-1 encodable (all code points < 0x100) — including
replacements containing bytes below 0x20 or above 0x7E — `patch_string`
pads it and writes it into a matching pre-image; the only encoding rejection
is a fatal `UnicodeEncodeError` for code points ≥ 0x100. -/
theorem c8_no_charset_check (data : List Nat) (offset : Nat)
    (old_str new_str : List Nat) (pad_char : Nat)
    (hold : old_str.all (· < 256) = true) (hnew : new_str.all (· < 256) = true)
    (hlen : new_str.length ≤ old_str.length)
    (hmatch : sliceBytes data offset old_str.length = old_str) :
    patch_string data offset old_str new_str pad_char =
      Except.ok (true,
        data.take offset ++
          (new_str ++ List.replicate (old_str.length - new_str.length) pad_char) ++
          data.drop (offset + old_str.length)) := by
  have hplen : (new_str ++
      List.replicate (old_str.length - new_str.length) pad_char).length =
      old_str.length := by
    rw [List.length_append, List.length_replicate]
    omega
  simp only [patch_string]
  rw [if_neg (by simp [hold, hnew]), if_neg (by omega)]
  simp only [patch_bytes]
  rw [if_neg (by rw [hplen]; omega), if_neg (by simp [hmatch]), hplen]

/-- C8 amended-claim witness: the byte 0xC8 (= 200, above 0x7E) is written
unmodified into the image. -/
theorem c8_no_charset_check_witness :
    patch_string [10, 11] 0 [10, 11] [200] 32 = Except.ok (true, [200, 32]) ∧
    (200 : Nat) > 0x7E := by
  have h := c8_no_charset_check [10, 11] 0 [10, 11] [200] 32
    (by decide) (by decide) (by decide) (by decide)
  exact ⟨h.trans (by rfl), by decide⟩

/-- C9 (count byte preserved): `safe_patch_pascal_string` never changes any
byte outside `[offset, offset + len(old))` — in particular the length/count
byte at `offset - 1` keeps its original value in every outcome. -/
theorem c9_count_byte_preserved (data : List Nat) (offset : Nat)
    (old_str new_str : List Nat) (j : Nat)
    (h : j < offset ∨ offset + old_str.length ≤ j) :
    ((safe_patch_pascal_string data offset old_str new_str).2)[j]? = data[j]? := by
  simp only [safe_patch_pascal_string]
  split_ifs <;>
    first
      | rfl
      | · show (writeAt data offset
            (new_str ++ List.replicate (old_str.length - new_str.length) 0x20))[j]? =
            data[j]?
          rcases h with hlt | hge
          · exact writeAt_getElem_lt _ data offset j hlt
          · apply writeAt_getElem_ge
            rw [List.length_append, List.length_replicate]
            omega

/-- C9 witness: the spec's scenario — count byte `0x05` at index 3 followed
by `"HELLO"`; replacing with `"HI"` (padded to 5 bytes) applies, and the
count byte at index 3 is still `0x05`. -/
theorem c9_count_byte_preserved_witness :
    ((safe_patch_pascal_string [0, 0, 0, 5, 72, 69, 76, 76, 79] 4
        [72, 69, 76, 76, 79] [72, 73]).2)[3]? = some 5 ∧
    (safe_patch_pascal_string [0, 0, 0, 5, 72, 69, 76, 76, 79] 4
        [72, 69, 76, 76, 79] [72, 73]).1 = POutcome.applied := by
  have h := c9_count_byte_preserved [0, 0, 0, 5, 72, 69, 76, 76, 79] 4
    [72, 69, 76, 76, 79] [72, 73] 3 (Or.inl (by omega))
  exact ⟨h.trans (by rfl), by decide⟩

/-- C10 (implicit, unconditional unverified writes): `patch_bytes_at` and the
corner-version loop compare nothing against an expected pre-image — for
every input image they report success, and for every in-bounds offset the
target range is overwritten with the new bytes regardless of its previous
content. -/
theorem c10_unconditional_write (data : List Nat) (offset : Nat)
    (new_bytes : List Nat) :
    (patch_bytes_at data offset new_bytes).1 = true ∧
    (offset + new_bytes.length ≤ data.length →
      (patch_bytes_at data offset new_bytes).2 =
        data.take offset ++ new_bytes ++ data.drop (offset + new_bytes.length)) ∧
    (create_corner_version data).1 = true := by
  refine ⟨rfl, ?_, rfl⟩
  intro h
  simp only [patch_bytes_at]
  exact writeAt_splice new_bytes data offset h

/-- C10 witness: a raw write at offset 1 of `[9,9,9]` succeeds and replaces
the byte even though no expected value was supplied. -/
theorem c10_unconditional_write_witness :
    (patch_bytes_at [9, 9, 9] 1 [7]).1 = true ∧
    (patch_bytes_at [9, 9, 9] 1 [7]).2 = [9, 7, 9] ∧
    (create_corner_version [9, 9, 9]).1 = true := by
  have h := c10_unconditional_write [9, 9, 9] 1 [7]
  exact ⟨h.1, (h.2.1 (by decide)).trans (by decide), h.2.2⟩
